import Mathlib

/-!
Verification development for the terminal-session process manager in
`src/electron/pty-manager.ts` (the current variant with the
200000/160000 buffer thresholds and tracked buffer size).

The pure data manipulation (output buffering with hysteresis trimming,
the restoration filter) is embedded directly; the stateful manager is
embedded as explicit state passing over a `ManagerState`, with consumer
notifications and process-level effects returned as explicit lists.
-/

namespace BAT

/-! ### Output buffer: chunks plus incrementally tracked size

From the `onData` handler in `create` (pty-manager.ts lines 341-354):

    instance.outputBuffer.push(data)
    instance.outputBufferSize += data.length
    if (instance.outputBufferSize > 200000) {
      while (instance.outputBuffer.length > 1 && instance.outputBufferSize > 160000) {
        const removed = instance.outputBuffer.shift()!
        instance.outputBufferSize -= removed.length
      }
    }
-/

def highWater : Nat := 200000

def lowWater : Nat := 160000

structure OutBuf where
  chunks : List String
  size : Nat
  deriving DecidableEq, Repr

/-- The `while (length > 1 && size > 160000) shift()` loop. -/
def trimLoop : List String → Nat → List String × Nat
  | [], n => ([], n)
  | [c], n => ([c], n)
  | c :: c2 :: rest, n =>
    if lowWater < n then trimLoop (c2 :: rest) (n - c.length)
    else (c :: c2 :: rest, n)

/-- One `onData` buffer update: push the chunk, bump the tracked size,
trim (whole oldest chunks) if the size exceeds the high-water mark. -/
def appendChunk (b : OutBuf) (data : String) : OutBuf :=
  if highWater < b.size + data.length then
    ⟨(trimLoop (b.chunks ++ [data]) (b.size + data.length)).1,
     (trimLoop (b.chunks ++ [data]) (b.size + data.length)).2⟩
  else
    ⟨b.chunks ++ [data], b.size + data.length⟩

/-- The tracked size agrees with the sum of the chunk lengths. -/
def bufWF (b : OutBuf) : Prop :=
  b.size = (b.chunks.map String.length).sum

/-- A string of `n` copies of `c`, for concrete buffer scenarios. -/
def repChar (c : Char) (n : Nat) : String :=
  String.mk (List.replicate n c)

/-! ### Restoration filter

From `filterClearScreenCodes` (pty-manager.ts lines 540-547): five
sequential global `.replace(pattern, '')` passes, in order
`ESC[2J`, `ESC[3J`, `ESC[H`, `ESC[?1049h|l`, `ESC c`.  Each JavaScript
global replace is a single left-to-right pass over its input: at each
position it tries the pattern (alternatives in order), on a match it
drops the matched characters and resumes after them, and it never
rescans text produced by earlier removals within the same pass. -/

def escChar : Char := '\x1b'

def seq2J : List Char := [escChar, '[', '2', 'J']

def seq3J : List Char := [escChar, '[', '3', 'J']

def seqHome : List Char := [escChar, '[', 'H']

def seq1049h : List Char := [escChar, '[', '?', '1', '0', '4', '9', 'h']

def seq1049l : List Char := [escChar, '[', '?', '1', '0', '4', '9', 'l']

def seqReset : List Char := [escChar, 'c']

def designatedSeqs : List (List Char) :=
  [seq2J, seq3J, seqHome, seq1049h, seq1049l, seqReset]

/-- `isPfx p s` is true when `p` is an initial segment of `s`. -/
def isPfx : List Char → List Char → Bool
  | [], _ => true
  | _ :: _, [] => false
  | a :: as, b :: bs => a == b && isPfx as bs

/-- First pattern of `pats` (in order) matching at the head of `s`. -/
def findPat (pats : List (List Char)) (s : List Char) : Option (List Char) :=
  pats.find? (fun p => !p.isEmpty && isPfx p s)

/-- One global replace-with-empty pass, fuelled so that it reduces by
kernel computation; `fuel = s.length` always suffices since every step
consumes at least one character. -/
def removePass (fuel : Nat) (pats : List (List Char)) (s : List Char) : List Char :=
  match fuel, s with
  | 0, s => s
  | _ + 1, [] => []
  | f + 1, c :: rest =>
    match findPat pats (c :: rest) with
    | some p => removePass f pats (List.drop (p.length - 1) rest)
    | none => c :: removePass f pats rest

/-- One JavaScript `.replace(pattern, '')` global pass. -/
def removeAll (pats : List (List Char)) (s : List Char) : List Char :=
  removePass s.length pats s

/-- The five sequential passes of `filterClearScreenCodes`. -/
def filterChars (s : List Char) : List Char :=
  removeAll [seqReset]
    (removeAll [seq1049h, seq1049l]
      (removeAll [seqHome]
        (removeAll [seq3J]
          (removeAll [seq2J] s))))

def filterClearScreenCodes (s : String) : String :=
  String.mk (filterChars s.data)

/-- `occursIn p s` is true when `p` occurs as a contiguous substring of `s`. -/
def occursIn (p : List Char) : List Char → Bool
  | [] => isPfx p []
  | c :: rest => isPfx p (c :: rest) || occursIn p rest

/-- Modelled from the spec sentence the claim quotes: a filter that
"removes exactly the occurrences of the designated sequences and leaves
every other byte unchanged and in order" — a single left-to-right pass
removing occurrences of any designated sequence. -/
def specRemoveDesignated (s : List Char) : List Char :=
  removeAll designatedSeqs s

/-- Input on which the code's five sequential passes diverge from the
spec-worded filter: removing `ESC[2J` juxtaposes the surrounding bytes
into `ESC c`, which the last pass then also removes. -/
def cascadeInput : List Char := [escChar, escChar, '[', '2', 'J', 'c']

/-! ### Manager state machine

`PtyManager` embedded as explicit state passing.  The module-level
`ptyAvailable` flag, the `disposed` flag and `window.isDestroyed()` are
state fields; consumer notifications (`webContents.send` /
`onTerminalCountChange`) and process-level actions (write/resize/kill
on the child) are returned as explicit lists.  Whether a given spawn
call would throw is external nondeterminism, passed in as a
`SpawnOutcome` argument. -/

inductive SessionType where
  | terminal
  | claudeCode
  deriving DecidableEq, Repr

structure PtyInstance where
  type : SessionType
  cwd : String
  usePty : Bool
  outputBuffer : List String
  outputBufferSize : Nat
  deriving DecidableEq, Repr

structure ManagerState where
  instances : List (String × PtyInstance)
  disposed : Bool
  windowDestroyed : Bool
  ptyAvailable : Bool
  deriving DecidableEq, Repr

/-- Consumer notifications: `pty:output`, `pty:exit`, and the
`onTerminalCountChange` callback. -/
inductive Event where
  | output (id : String) (data : String)
  | exit (id : String) (code : Int)
  | countChange (count : Nat)
  deriving DecidableEq, Repr

/-- Actions on the underlying child process. -/
inductive ProcEffect where
  | write (id : String) (data : String)
  | resize (id : String) (cols : Nat) (rows : Nat)
  | kill (id : String)
  deriving DecidableEq, Repr

inductive SpawnOutcome where
  | ok
  | throws
  deriving DecidableEq, Repr

structure StepOut where
  st : ManagerState
  events : List Event
  effects : List ProcEffect
  ok : Bool
  deriving DecidableEq, Repr

/-- `create`'s result, also recording whether a native spawn was attempted. -/
structure CreateOut where
  st : ManagerState
  events : List Event
  effects : List ProcEffect
  ok : Bool
  attemptedNative : Bool
  deriving DecidableEq, Repr

def lookupInst (id : String) : List (String × PtyInstance) → Option PtyInstance
  | [] => none
  | (k, v) :: rest => if k = id then some v else lookupInst id rest

/-- `Map.set`: replace in place, else append in insertion order. -/
def setInst (id : String) (v : PtyInstance) :
    List (String × PtyInstance) → List (String × PtyInstance)
  | [] => [(id, v)]
  | (k, w) :: rest =>
    if k = id then (k, v) :: rest else (k, w) :: setInst id v rest

/-- `Map.delete`. -/
def delInst (id : String) : List (String × PtyInstance) → List (String × PtyInstance)
  | [] => []
  | (k, v) :: rest =>
    if k = id then delInst id rest else (k, v) :: delInst id rest

/-- `safeSend` (lines 44-48): deliver unless disposed or the window is
destroyed. -/
def safeSend (st : ManagerState) (e : Event) : List Event :=
  if !st.disposed && !st.windowDestroyed then [e] else []

def degradedNotice : String := "[Terminal - child_process mode]\r\n"

/-- `write` (lines 470-481): both backends forward to the process. -/
def writeOp (st : ManagerState) (id : String) (data : String) : StepOut :=
  match lookupInst id st.instances with
  | some _ => ⟨st, [], [ProcEffect.write id data], true⟩
  | none => ⟨st, [], [], true⟩

/-- `resize` (lines 483-488): only the native backend resizes. -/
def resizeOp (st : ManagerState) (id : String) (cols rows : Nat) : StepOut :=
  match lookupInst id st.instances with
  | some inst =>
    if inst.usePty then ⟨st, [], [ProcEffect.resize id cols rows], true⟩
    else ⟨st, [], [], true⟩
  | none => ⟨st, [], [], true⟩

/-- `kill` (lines 490-503): terminate the process, deregister, notify
the session-count observer (unconditionally), report existence. -/
def killOp (st : ManagerState) (id : String) : StepOut :=
  match lookupInst id st.instances with
  | some _ =>
    let insts := delInst id st.instances
    ⟨{ st with instances := insts },
      [Event.countChange insts.length], [ProcEffect.kill id], true⟩
  | none => ⟨st, [], [], false⟩

/-- The `if (!usedPty)` fallback branch of `create` (lines 374-465):
spawn via child_process, send the degraded-mode notice (through
`safeSend`, before registering), register, notify the count observer. -/
def pipedCreate (st : ManagerState) (id cwd : String) (t : SessionType)
    (pipedOut : SpawnOutcome) (attempted : Bool) : CreateOut :=
  match pipedOut with
  | SpawnOutcome.ok =>
    let ev1 := safeSend st (Event.output id degradedNotice)
    let insts := setInst id ⟨t, cwd, false, [], 0⟩ st.instances
    ⟨{ st with instances := insts },
      ev1 ++ [Event.countChange insts.length], [], true, attempted⟩
  | SpawnOutcome.throws => ⟨st, [], [], false, attempted⟩

/-- `create` (lines 286-468): try native when `ptyAvailable`; a native
throw permanently clears `ptyAvailable` and falls through to the piped
branch; with native unavailable go straight to the piped branch. -/
def createOp (st : ManagerState) (id cwd : String) (t : SessionType)
    (natOut pipedOut : SpawnOutcome) : CreateOut :=
  if st.ptyAvailable then
    match natOut with
    | SpawnOutcome.ok =>
      let insts := setInst id ⟨t, cwd, true, [], 0⟩ st.instances
      ⟨{ st with instances := insts },
        [Event.countChange insts.length], [], true, true⟩
    | SpawnOutcome.throws =>
      pipedCreate { st with ptyAvailable := false } id cwd t pipedOut true
  else
    pipedCreate st id cwd t pipedOut false

/-- `restart` (lines 505-523): save the buffer and its tracked size,
kill, re-create under the same id, and on success write the saved
buffer and size back into the fresh instance. -/
def restartOp (st : ManagerState) (id cwd : String)
    (natOut pipedOut : SpawnOutcome) : CreateOut :=
  match lookupInst id st.instances with
  | some inst =>
    let saved := inst.outputBuffer
    let savedSize := inst.outputBufferSize
    let k := killOp st id
    let c := createOp k.st id cwd inst.type natOut pipedOut
    if c.ok then
      match lookupInst id c.st.instances with
      | some ni =>
        ⟨{ c.st with instances :=
            (setInst id { ni with outputBuffer := saved, outputBufferSize := savedSize }
              c.st.instances) },
          k.events ++ c.events, k.effects ++ c.effects, true, c.attemptedNative⟩
      | none =>
        ⟨c.st, k.events ++ c.events, k.effects ++ c.effects, true, c.attemptedNative⟩
    else
      ⟨c.st, k.events ++ c.events, k.effects ++ c.effects, false, c.attemptedNative⟩
  | none => ⟨st, [], [], false, false⟩

/-- A backend data event (the `onData` / stdout / stderr handlers):
append to the buffer with trimming, forward the raw chunk through
`safeSend`. -/
def onDataOp (st : ManagerState) (id : String) (data : String) : StepOut :=
  let st1 :=
    match lookupInst id st.instances with
    | some inst =>
      let b := appendChunk ⟨inst.outputBuffer, inst.outputBufferSize⟩ data
      { st with instances :=
          (setInst id { inst with outputBuffer := b.chunks, outputBufferSize := b.size }
            st.instances) }
    | none => st
  ⟨st1, safeSend st1 (Event.output id data), [], true⟩

/-- A backend exit event: forward the code through `safeSend`,
deregister, notify the count observer (unconditionally). -/
def onExitOp (st : ManagerState) (id : String) (code : Int) : StepOut :=
  let ev1 := safeSend st (Event.exit id code)
  let insts := delInst id st.instances
  ⟨{ st with instances := insts },
    ev1 ++ [Event.countChange insts.length], [], true⟩

/-- The piped backend's `error` handler (lines 450-453): synthetic
error text through `safeSend` only; the buffer is untouched. -/
def onChildErrorOp (st : ManagerState) (id : String) (msg : String) : StepOut :=
  ⟨st, safeSend st (Event.output id ("\r\n[Error: " ++ msg ++ "]\r\n")), [], true⟩

/-- `clearOutputBuffer` (lines 560-566). -/
def clearOp (st : ManagerState) (id : String) : StepOut :=
  match lookupInst id st.instances with
  | some inst =>
    ⟨{ st with instances :=
        (setInst id { inst with outputBuffer := [], outputBufferSize := 0 } st.instances) },
      [], [], true⟩
  | none => ⟨st, [], [], true⟩

/-- `getCwd` (lines 525-531). -/
def getCwdOp (st : ManagerState) (id : String) : Option String :=
  (lookupInst id st.instances).map PtyInstance.cwd

/-- `exists` (lines 534-536). -/
def existsOp (st : ManagerState) (id : String) : Bool :=
  (lookupInst id st.instances).isSome

/-- `getOutputBuffer` (lines 550-557): join the chunks and apply the
restoration filter to the snapshot only. -/
def getOutputBufferOp (st : ManagerState) (id : String) : Option String :=
  (lookupInst id st.instances).map
    (fun inst => filterClearScreenCodes (String.join inst.outputBuffer))

/-- Kill each id in turn (the loop body of `dispose`). -/
def killAll : ManagerState → List String → ManagerState × List Event × List ProcEffect
  | st, [] => (st, [], [])
  | st, id :: rest =>
    let k := killOp st id
    let r := killAll k.st rest
    (r.1, k.events ++ r.2.1, k.effects ++ r.2.2)

/-- `dispose` (lines 568-573): set the disposed flag, then kill every
registered session. -/
def disposeOp (st : ManagerState) : StepOut :=
  let st1 := { st with disposed := true }
  let r := killAll st1 (st1.instances.map Prod.fst)
  ⟨r.1, r.2.1, r.2.2, true⟩

/-- All state-mutating entry points, for lifetime invariants. -/
inductive Op where
  | create (id cwd : String) (t : SessionType) (natOut pipedOut : SpawnOutcome)
  | write (id data : String)
  | resize (id : String) (cols rows : Nat)
  | kill (id : String)
  | restart (id cwd : String) (natOut pipedOut : SpawnOutcome)
  | onData (id data : String)
  | onExit (id : String) (code : Int)
  | onChildError (id msg : String)
  | clearBuffer (id : String)
  | dispose
  deriving DecidableEq, Repr

def step (st : ManagerState) : Op → ManagerState
  | Op.create id cwd t n p => (createOp st id cwd t n p).st
  | Op.write id data => (writeOp st id data).st
  | Op.resize id cols rows => (resizeOp st id cols rows).st
  | Op.kill id => (killOp st id).st
  | Op.restart id cwd n p => (restartOp st id cwd n p).st
  | Op.onData id data => (onDataOp st id data).st
  | Op.onExit id code => (onExitOp st id code).st
  | Op.onChildError id msg => (onChildErrorOp st id msg).st
  | Op.clearBuffer id => (clearOp st id).st
  | Op.dispose => (disposeOp st).st

def run (st : ManagerState) (ops : List Op) : ManagerState :=
  ops.foldl step st

/-- Every registered instance's tracked size equals the sum of its
chunk lengths. -/
def listWF (l : List (String × PtyInstance)) : Prop :=
  ∀ id inst, lookupInst id l = some inst →
    inst.outputBufferSize = (inst.outputBuffer.map String.length).sum

def stWF (st : ManagerState) : Prop :=
  listWF st.instances

/-! ### Concrete states for scenario theorems -/

def exInst : PtyInstance := ⟨SessionType.terminal, "/tmp", true, ["hello"], 5⟩

def exSt : ManagerState := ⟨[("s1", exInst)], false, false, true⟩

def exStEmpty : ManagerState := ⟨[], false, false, true⟩

def exStNoNative : ManagerState := ⟨[], false, false, false⟩

/-! ### Buffer lemmas -/

@[simp] theorem repChar_length (c : Char) (n : Nat) : (repChar c n).length = n := by
  simp [repChar, String.length]

theorem trimLoop_wf : ∀ (chunks : List String) (n : Nat),
    n = (chunks.map String.length).sum →
    (trimLoop chunks n).2 = ((trimLoop chunks n).1.map String.length).sum
  | [], n, h => by simpa [trimLoop] using h
  | [c], n, h => by simpa [trimLoop] using h
  | c :: c2 :: rest, n, h => by
    rw [trimLoop]
    split
    · exact trimLoop_wf (c2 :: rest) (n - c.length) (by simp at h ⊢; omega)
    · simpa using h

theorem trimLoop_getLast : ∀ (chunks : List String) (n : Nat),
    (trimLoop chunks n).1.getLast? = chunks.getLast?
  | [], _ => rfl
  | [_], _ => rfl
  | c :: c2 :: rest, n => by
    rw [trimLoop]
    split
    · rw [trimLoop_getLast (c2 :: rest) (n - c.length)]
      simp
    · rfl

theorem trimLoop_sfx : ∀ (chunks : List String) (n : Nat),
    ∃ t, t ++ (trimLoop chunks n).1 = chunks
  | [], _ => ⟨[], rfl⟩
  | [_], _ => ⟨[], rfl⟩
  | c :: c2 :: rest, n => by
    rw [trimLoop]
    split
    · obtain ⟨t, ht⟩ := trimLoop_sfx (c2 :: rest) (n - c.length)
      exact ⟨c :: t, by simp [ht]⟩
    · exact ⟨[], rfl⟩

theorem trimLoop_settle : ∀ (chunks : List String) (n : Nat),
    (trimLoop chunks n).1.length ≤ 1 ∨ (trimLoop chunks n).2 ≤ lowWater
  | [], _ => Or.inl (by simp [trimLoop])
  | [_], _ => Or.inl (by simp [trimLoop])
  | c :: c2 :: rest, n => by
    rw [trimLoop]
    split
    · exact trimLoop_settle (c2 :: rest) (n - c.length)
    · next h => exact Or.inr (Nat.le_of_not_lt h)

theorem appendChunk_wf (b : OutBuf) (data : String) (h : bufWF b) :
    bufWF (appendChunk b data) := by
  unfold bufWF at *
  unfold appendChunk
  split
  · exact trimLoop_wf _ _ (by simp [h])
  · simp [h]

theorem appendChunk_getLast (b : OutBuf) (data : String) :
    (appendChunk b data).chunks.getLast? = some data := by
  unfold appendChunk
  split
  · rw [show ((⟨(trimLoop (b.chunks ++ [data]) (b.size + data.length)).1,
        (trimLoop (b.chunks ++ [data]) (b.size + data.length)).2⟩ : OutBuf)).chunks
        = (trimLoop (b.chunks ++ [data]) (b.size + data.length)).1 from rfl]
    rw [trimLoop_getLast]
    simp
  · simp

/-! ### Claim theorems: output buffer -/

/-- C1 (as stated) is false: starting from the empty buffer, appending
a 150000-character chunk and then a 60000-character chunk pushes the
tracked size to 210000, over the high-water mark, yet after the
trimming loop settles the tracked size is 60000, strictly below the
low-water mark 160000. -/
theorem claim_c1_cex :
    highWater <
      (appendChunk ⟨[], 0⟩ (repChar 'a' 150000)).size + (repChar 'b' 60000).length ∧
    (appendChunk (appendChunk ⟨[], 0⟩ (repChar 'a' 150000)) (repChar 'b' 60000)).size
      < lowWater := by
  have h1 : appendChunk (⟨[], 0⟩ : OutBuf) (repChar 'a' 150000)
      = ⟨[repChar 'a' 150000], 150000⟩ := by
    norm_num [appendChunk, highWater]
  have h2 : appendChunk (⟨[repChar 'a' 150000], 150000⟩ : OutBuf) (repChar 'b' 60000)
      = ⟨[repChar 'b' 60000], 60000⟩ := by
    norm_num [appendChunk, trimLoop, highWater, lowWater]
  rw [h1, h2]
  norm_num [highWater, lowWater]

/-- C1 (amended): if appending makes the tracked total size exceed the
high-water mark (200000), then after the trimming loop settles the
tracked size still equals the sum of the retained chunk lengths, the
retained chunks are a suffix of the old chunks followed by the appended
chunk (whole oldest chunks are removed, no chunk is ever split), and
either the tracked size is at most the low-water mark (160000) — it
may fall strictly below it — or exactly one (unsplit) chunk remains,
which may leave the size above both marks. -/
theorem claim_c1 (b : OutBuf) (data : String) (hwf : bufWF b)
    (hover : highWater < b.size + data.length) :
    bufWF (appendChunk b data) ∧
    (∃ t, t ++ (appendChunk b data).chunks = b.chunks ++ [data]) ∧
    ((appendChunk b data).size ≤ lowWater ∨ (appendChunk b data).chunks.length = 1) := by
  refine ⟨appendChunk_wf b data hwf, ?_, ?_⟩
  · unfold appendChunk
    rw [if_pos hover]
    exact trimLoop_sfx _ _
  · have hlast := appendChunk_getLast b data
    have hne : (appendChunk b data).chunks ≠ [] := by
      intro hnil; rw [hnil] at hlast; simp at hlast
    rcases trimLoop_settle (b.chunks ++ [data]) (b.size + data.length) with h | h
    · right
      have h1 : 1 ≤ (appendChunk b data).chunks.length :=
        List.length_pos.mpr hne
      have h2 : (appendChunk b data).chunks.length ≤ 1 := by
        unfold appendChunk
        rw [if_pos hover]
        exact h
      omega
    · left
      unfold appendChunk
      rw [if_pos hover]
      exact h

/-- Witness for C1 (amended) at the empty buffer and a single
200001-character chunk. -/
theorem claim_c1_witness :
    bufWF (⟨[], 0⟩ : OutBuf) ∧
    highWater < (⟨[], 0⟩ : OutBuf).size + (repChar 'b' 200001).length ∧
    (bufWF (appendChunk ⟨[], 0⟩ (repChar 'b' 200001)) ∧
      (∃ t, t ++ (appendChunk ⟨[], 0⟩ (repChar 'b' 200001)).chunks
        = (⟨[], 0⟩ : OutBuf).chunks ++ [repChar 'b' 200001]) ∧
      ((appendChunk ⟨[], 0⟩ (repChar 'b' 200001)).size ≤ lowWater ∨
        (appendChunk ⟨[], 0⟩ (repChar 'b' 200001)).chunks.length = 1)) :=
  ⟨by simp [bufWF], by norm_num [highWater],
    claim_c1 ⟨[], 0⟩ (repChar 'b' 200001) (by simp [bufWF]) (by norm_num [highWater])⟩

/-- C8: appending a 150000-character chunk and then a 60000-character
chunk (total 210000 > 200000) leaves, after trimming, a tracked size of
at most 200000, with the retained chunk sequence ending in the
complete, unsplit 60000-character chunk. -/
theorem claim_c8 :
    (appendChunk (appendChunk ⟨[], 0⟩ (repChar 'a' 150000)) (repChar 'b' 60000)).size
      ≤ highWater ∧
    (appendChunk (appendChunk ⟨[], 0⟩ (repChar 'a' 150000)) (repChar 'b' 60000)).chunks.getLast?
      = some (repChar 'b' 60000) ∧
    (repChar 'b' 60000).length = 60000 := by
  have h1 : appendChunk (⟨[], 0⟩ : OutBuf) (repChar 'a' 150000)
      = ⟨[repChar 'a' 150000], 150000⟩ := by
    norm_num [appendChunk, highWater]
  have h2 : appendChunk (⟨[repChar 'a' 150000], 150000⟩ : OutBuf) (repChar 'b' 60000)
      = ⟨[repChar 'b' 60000], 60000⟩ := by
    norm_num [appendChunk, trimLoop, highWater, lowWater]
  rw [h1, h2]
  norm_num [highWater]

/-- C9: the trimming loop never removes the most recently appended
chunk — after any append the buffer is non-empty and ends with the
chunk just appended — and if a single appended chunk alone exceeds the
high-water mark it is retained in full and the tracked size stays above
the high-water mark. -/
theorem claim_c9 (b : OutBuf) (data : String) :
    (appendChunk b data).chunks.getLast? = some data ∧
    (bufWF b → highWater < data.length → highWater < (appendChunk b data).size) := by
  refine ⟨appendChunk_getLast b data, fun hwf hbig => ?_⟩
  have hwf' := appendChunk_wf b data hwf
  have hlast := appendChunk_getLast b data
  have hmem : data ∈ (appendChunk b data).chunks := by
    rcases List.getLast?_eq_some_iff.mp hlast with ⟨l, hl⟩
    rw [hl]; simp
  have hle : data.length ≤ ((appendChunk b data).chunks.map String.length).sum :=
    List.single_le_sum (fun x _ => Nat.zero_le x) _
      (List.mem_map_of_mem String.length hmem)
  unfold bufWF at hwf'
  omega

/-! ### Registry lemmas -/

theorem lookupInst_setInst_self (id : String) (v : PtyInstance) :
    ∀ l, lookupInst id (setInst id v l) = some v
  | [] => by simp [setInst, lookupInst]
  | (k, w) :: rest => by
    by_cases hk : k = id
    · simp [setInst, lookupInst, hk]
    · simp [setInst, lookupInst, hk, lookupInst_setInst_self id v rest]

theorem lookupInst_setInst_ne (id k : String) (v : PtyInstance) (h : k ≠ id) :
    ∀ l, lookupInst k (setInst id v l) = lookupInst k l
  | [] => by simp [setInst, lookupInst, Ne.symm h]
  | (k', w) :: rest => by
    by_cases hk : k' = id
    · subst hk
      simp [setInst, lookupInst, Ne.symm h]
    · simp only [setInst, if_neg hk, lookupInst]
      by_cases hk2 : k' = k
      · simp [hk2]
      · simp [hk2, lookupInst_setInst_ne id k v h rest]

theorem lookupInst_delInst_self (id : String) :
    ∀ l, lookupInst id (delInst id l) = none
  | [] => by simp [delInst, lookupInst]
  | (k, w) :: rest => by
    by_cases hk : k = id
    · simp [delInst, hk, lookupInst_delInst_self id rest]
    · simp [delInst, hk, lookupInst, lookupInst_delInst_self id rest]

theorem lookupInst_delInst_ne (id k : String) (h : k ≠ id) :
    ∀ l, lookupInst k (delInst id l) = lookupInst k l
  | [] => by simp [delInst, lookupInst]
  | (k', w) :: rest => by
    by_cases hk : k' = id
    · subst hk
      simp [delInst, lookupInst, Ne.symm h, lookupInst_delInst_ne k' k h rest]
    · simp only [delInst, if_neg hk, lookupInst]
      by_cases hk2 : k' = k
      · simp [hk2]
      · simp [hk2, lookupInst_delInst_ne id k h rest]

/-! ### Filter lemmas -/

theorem findPat_none_of_not_occurs (pats : List (List Char)) (c : Char)
    (rest : List Char) (h : ∀ p ∈ pats, occursIn p (c :: rest) = false) :
    findPat pats (c :: rest) = none := by
  unfold findPat
  rw [List.find?_eq_none]
  intro p hp
  have hocc := h p hp
  simp only [occursIn, Bool.or_eq_false_iff] at hocc
  simp [hocc.1]

theorem removePass_id (fuel : Nat) (pats : List (List Char)) :
    ∀ s : List Char, (∀ p ∈ pats, occursIn p s = false) →
      removePass fuel pats s = s := by
  induction fuel with
  | zero => intro s _; rfl
  | succ f ih =>
    intro s h
    cases s with
    | nil => rfl
    | cons c rest =>
      have h' : ∀ p ∈ pats, occursIn p rest = false := by
        intro p hp
        have := h p hp
        simp only [occursIn, Bool.or_eq_false_iff] at this
        exact this.2
      simp only [removePass, findPat_none_of_not_occurs pats c rest h]
      rw [ih rest h']

theorem removeAll_id (pats : List (List Char)) (s : List Char)
    (h : ∀ p ∈ pats, occursIn p s = false) : removeAll pats s = s :=
  removePass_id s.length pats s h

theorem filterChars_id_of_not_occurs (s : List Char)
    (h : ∀ p ∈ designatedSeqs, occursIn p s = false) :
    filterChars s = s := by
  have h1 := h seq2J (by simp [designatedSeqs])
  have h2 := h seq3J (by simp [designatedSeqs])
  have h3 := h seqHome (by simp [designatedSeqs])
  have h4 := h seq1049h (by simp [designatedSeqs])
  have h5 := h seq1049l (by simp [designatedSeqs])
  have h6 := h seqReset (by simp [designatedSeqs])
  unfold filterChars
  rw [removeAll_id [seq2J] s (by intro p hp; simp at hp; subst hp; exact h1)]
  rw [removeAll_id [seq3J] s (by intro p hp; simp at hp; subst hp; exact h2)]
  rw [removeAll_id [seqHome] s (by intro p hp; simp at hp; subst hp; exact h3)]
  rw [removeAll_id [seq1049h, seq1049l] s (by
    intro p hp
    simp at hp
    rcases hp with hp | hp <;> subst hp <;> assumption)]
  rw [removeAll_id [seqReset] s (by intro p hp; simp at hp; subst hp; exact h6)]

/-! ### Claim theorems: restoration filter -/

/-- C6 (as stated) is false: on the input `ESC ESC [ 2 J c`, the code's
five sequential replacement passes first remove the `ESC[2J` occurrence
(indices 1-4), juxtaposing the remaining outer bytes `ESC` (index 0)
and `c` (index 5) into `ESC c`, which the final pass then also removes:
the code's filter returns the empty string even though those two bytes
lie outside every occurrence of a designated sequence; a filter that
removes exactly the occurrences and leaves every other byte unchanged
(the spec-worded `specRemoveDesignated`) keeps them. -/
theorem claim_c6_cex :
    filterChars cascadeInput = [] ∧
    specRemoveDesignated cascadeInput = [escChar, 'c'] ∧
    filterChars cascadeInput ≠ specRemoveDesignated cascadeInput := by
  decide

/-- C6 (amended): the restoration filter is five sequential single-pass
global removals, in order ESC[2J, ESC[3J, ESC[H, ESC[?1049h/l, ESC c.
An input containing no occurrence of any designated sequence — in
particular one containing only partial or ambiguous escape sequences —
is returned unchanged, byte for byte, in order; each designated
sequence itself is removed entirely; but a removal in an earlier pass
may juxtapose remaining bytes into an occurrence of a later pattern,
which is then also removed. The filter is applied only to the snapshot
returned by `getOutputBuffer`; the stored chunks and the live stream
carry the raw bytes: a data event forwards its chunk unfiltered and
stores it unfiltered as the last buffer chunk. -/
theorem claim_c6 :
    (∀ s : List Char, (∀ p ∈ designatedSeqs, occursIn p s = false) →
      filterChars s = s) ∧
    (∀ p ∈ designatedSeqs, filterChars p = []) ∧
    (∀ st id, getOutputBufferOp st id =
      (lookupInst id st.instances).map
        (fun inst => filterClearScreenCodes (String.join inst.outputBuffer))) ∧
    (∀ st id data, st.disposed = false → st.windowDestroyed = false →
      (onDataOp st id data).events = [Event.output id data]) ∧
    (∀ st id data inst, lookupInst id st.instances = some inst →
      ∃ inst', lookupInst id (onDataOp st id data).st.instances = some inst' ∧
        inst'.outputBuffer.getLast? = some data) := by
  refine ⟨filterChars_id_of_not_occurs, by decide, fun st id => rfl, ?_, ?_⟩
  · intro st id data hd hw
    unfold onDataOp safeSend
    cases hl : lookupInst id st.instances <;> simp [hl, hd, hw]
  · intro st id data inst hl
    unfold onDataOp
    refine ⟨{ inst with
        outputBuffer := (appendChunk ⟨inst.outputBuffer, inst.outputBufferSize⟩ data).chunks,
        outputBufferSize := (appendChunk ⟨inst.outputBuffer, inst.outputBufferSize⟩ data).size },
      ?_, ?_⟩
    · simp only [hl, lookupInst_setInst_self]
    · exact appendChunk_getLast ⟨inst.outputBuffer, inst.outputBufferSize⟩ data

/-- Witness for C6 (amended) on concrete inputs. -/
theorem claim_c6_witness :
    filterChars ['h', 'i'] = ['h', 'i'] ∧
    (onDataOp exStEmpty "s1" "hi").events = [Event.output "s1" "hi"] ∧
    (∃ inst', lookupInst "s1" (onDataOp exSt "s1" "hi").st.instances = some inst' ∧
      inst'.outputBuffer.getLast? = some "hi") :=
  ⟨claim_c6.1 ['h', 'i'] (by decide),
    claim_c6.2.2.2.1 exStEmpty "s1" "hi" rfl rfl,
    claim_c6.2.2.2.2 exSt "s1" "hi" exInst (by simp [exSt, lookupInst])⟩

/-! ### Manager lemmas -/

theorem createOp_pty (st : ManagerState) (id cwd : String) (t : SessionType)
    (n p : SpawnOutcome) :
    (createOp st id cwd t n p).st.ptyAvailable
      = (st.ptyAvailable && n == SpawnOutcome.ok) := by
  unfold createOp pipedCreate
  by_cases hp : st.ptyAvailable <;> cases n <;> cases p <;> simp [hp]

theorem createOp_disposed (st : ManagerState) (id cwd : String) (t : SessionType)
    (n p : SpawnOutcome) :
    (createOp st id cwd t n p).st.disposed = st.disposed := by
  unfold createOp pipedCreate
  by_cases hp : st.ptyAvailable <;> cases n <;> cases p <;> simp [hp]

theorem createOp_ok_lookup (st : ManagerState) (id cwd : String) (t : SessionType)
    (n p : SpawnOutcome) (h : (createOp st id cwd t n p).ok = true) :
    ∃ b, lookupInst id (createOp st id cwd t n p).st.instances
      = some ⟨t, cwd, b, [], 0⟩ := by
  unfold createOp pipedCreate at *
  by_cases hp : st.ptyAvailable <;> cases n <;> cases p <;>
    simp [hp, lookupInst_setInst_self] at h ⊢

theorem createOp_fail_instances (st : ManagerState) (id cwd : String)
    (t : SessionType) (n p : SpawnOutcome)
    (h : (createOp st id cwd t n p).ok = false) :
    (createOp st id cwd t n p).st.instances = st.instances := by
  unfold createOp pipedCreate at *
  by_cases hp : st.ptyAvailable <;> cases n <;> cases p <;> simp [hp] at h ⊢

theorem killOp_st_of_some (st : ManagerState) (id : String) (inst : PtyInstance)
    (h : lookupInst id st.instances = some inst) :
    (killOp st id).st = { st with instances := delInst id st.instances } := by
  simp [killOp, h]

theorem killOp_pty (st : ManagerState) (id : String) :
    (killOp st id).st.ptyAvailable = st.ptyAvailable := by
  unfold killOp
  split <;> rfl

theorem killOp_disposed (st : ManagerState) (id : String) :
    (killOp st id).st.disposed = st.disposed := by
  unfold killOp
  split <;> rfl

theorem restartOp_pty_false (st : ManagerState) (id cwd : String)
    (n p : SpawnOutcome) (h : st.ptyAvailable = false) :
    (restartOp st id cwd n p).st.ptyAvailable = false := by
  have hc : ∀ inst, (createOp (killOp st id).st id cwd inst n p).st.ptyAvailable = false := by
    intro inst
    rw [createOp_pty, killOp_pty, h]
    rfl
  unfold restartOp
  split
  · next inst _ =>
    dsimp only
    split
    · split
      · simpa using hc inst.type
      · exact hc inst.type
    · exact hc inst.type
  · exact h

theorem onDataOp_pty (st : ManagerState) (id data : String) :
    (onDataOp st id data).st.ptyAvailable = st.ptyAvailable := by
  unfold onDataOp
  split <;> rfl

theorem killAll_pty : ∀ (ids : List String) (st : ManagerState),
    (killAll st ids).1.ptyAvailable = st.ptyAvailable
  | [], _ => rfl
  | id :: rest, st => by
    simp only [killAll]
    rw [killAll_pty rest (killOp st id).st, killOp_pty]

theorem killAll_disposed : ∀ (ids : List String) (st : ManagerState),
    (killAll st ids).1.disposed = st.disposed
  | [], _ => rfl
  | id :: rest, st => by
    simp only [killAll]
    rw [killAll_disposed rest (killOp st id).st, killOp_disposed]

theorem step_pty_false (st : ManagerState) (op : Op)
    (h : st.ptyAvailable = false) : (step st op).ptyAvailable = false := by
  cases op with
  | create id cwd t n p => simp only [step]; rw [createOp_pty, h]; rfl
  | write id data => simp only [step, writeOp]; split <;> exact h
  | resize id cols rows =>
    simp only [step, resizeOp]
    split
    · split <;> exact h
    · exact h
  | kill id => simp only [step]; rw [killOp_pty]; exact h
  | restart id cwd n p => simp only [step]; exact restartOp_pty_false st id cwd n p h
  | onData id data => simp only [step]; rw [onDataOp_pty]; exact h
  | onExit id code => exact h
  | onChildError id msg => exact h
  | clearBuffer id => simp only [step, clearOp]; split <;> exact h
  | dispose => simp only [step, disposeOp]; rw [killAll_pty]; exact h

theorem run_pty_false (st : ManagerState) (ops : List Op)
    (h : st.ptyAvailable = false) : (run st ops).ptyAvailable = false := by
  induction ops generalizing st with
  | nil => exact h
  | cons op rest ih => exact ih (step st op) (step_pty_false st op h)

theorem lookupInst_eq_none_keys (k : String) :
    ∀ l, lookupInst k l = none → ∀ p ∈ l, p.1 ≠ k
  | [], _, p, hp => by simp at hp
  | (k', w) :: rest, h, p, hp => by
    simp only [lookupInst] at h
    by_cases hk : k' = k
    · rw [if_pos hk] at h
      exact Option.noConfusion h
    · rw [if_neg hk] at h
      rcases List.mem_cons.mp hp with rfl | hp'
      · exact hk
      · exact lookupInst_eq_none_keys k rest h p hp'

theorem mem_delInst (id : String) (p : String × PtyInstance) :
    ∀ l, p ∈ delInst id l → p ∈ l ∧ p.1 ≠ id
  | [], hp => by simp [delInst] at hp
  | (k, w) :: rest, hp => by
    simp only [delInst] at hp
    by_cases hk : k = id
    · rw [if_pos hk] at hp
      have hr := mem_delInst id p rest hp
      exact ⟨List.mem_cons_of_mem _ hr.1, hr.2⟩
    · rw [if_neg hk] at hp
      rcases List.mem_cons.mp hp with rfl | hp'
      · exact ⟨List.mem_cons_self _ _, hk⟩
      · have hr := mem_delInst id p rest hp'
        exact ⟨List.mem_cons_of_mem _ hr.1, hr.2⟩

theorem lookupInst_delInst_some (id k : String) (l : List (String × PtyInstance))
    (v : PtyInstance) (h : lookupInst k (delInst id l) = some v) :
    lookupInst k l = some v := by
  by_cases hk : k = id
  · subst hk
    rw [lookupInst_delInst_self] at h
    exact Option.noConfusion h
  · rw [lookupInst_delInst_ne id k hk] at h
    exact h

theorem killOp_lookup (st : ManagerState) (id k : String) (v : PtyInstance)
    (h : lookupInst k (killOp st id).st.instances = some v) :
    lookupInst k st.instances = some v := by
  unfold killOp at h
  split at h
  · exact lookupInst_delInst_some id k st.instances v h
  · exact h

theorem killAll_lookup : ∀ (ids : List String) (st : ManagerState)
    (k : String) (v : PtyInstance),
    lookupInst k (killAll st ids).1.instances = some v →
    lookupInst k st.instances = some v
  | [], _, _, _, h => h
  | id :: rest, st, k, v, h => by
    simp only [killAll] at h
    exact killOp_lookup st id k v (killAll_lookup rest (killOp st id).st k v h)

theorem killOp_events (st : ManagerState) (id : String) :
    ∀ e ∈ (killOp st id).events, ∃ n, e = Event.countChange n := by
  unfold killOp
  split
  · intro e he
    simp only [List.mem_singleton] at he
    exact ⟨_, he⟩
  · intro e he
    simp at he

theorem killAll_events : ∀ (ids : List String) (st : ManagerState),
    ∀ e ∈ (killAll st ids).2.1, ∃ n, e = Event.countChange n
  | [], st, e, he => by simp [killAll] at he
  | id :: rest, st, e, he => by
    simp only [killAll, List.mem_append] at he
    rcases he with he | he
    · exact killOp_events st id e he
    · exact killAll_events rest (killOp st id).st e he

theorem killAll_empties : ∀ (ids : List String) (st : ManagerState),
    (∀ p ∈ st.instances, p.1 ∈ ids) → (killAll st ids).1.instances = []
  | [], st, h => by
    cases hi : st.instances with
    | nil => simp [killAll, hi]
    | cons p l =>
      have := h p (by rw [hi]; exact List.mem_cons_self p l)
      simp at this
  | id :: rest, st, h => by
    simp only [killAll]
    apply killAll_empties rest
    intro p hp
    cases hl : lookupInst id st.instances with
    | none =>
      simp only [killOp, hl] at hp
      have h1 := h p hp
      have h2 := lookupInst_eq_none_keys id st.instances hl p hp
      simp only [List.mem_cons] at h1
      rcases h1 with h1 | h1
      · exact absurd h1 h2
      · exact h1
    | some inst =>
      simp only [killOp, hl] at hp
      obtain ⟨hin, hne⟩ := mem_delInst id p st.instances hp
      have h1 := h p hin
      simp only [List.mem_cons] at h1
      rcases h1 with h1 | h1
      · exact absurd h1 hne
      · exact h1

theorem safeSend_disposed (st : ManagerState) (e : Event)
    (h : st.disposed = true) : safeSend st e = [] := by
  simp [safeSend, h]

/-! ### Size-invariant lemmas -/

theorem listWF_setInst (l : List (String × PtyInstance)) (id : String)
    (v : PtyInstance) (h : listWF l)
    (hv : v.outputBufferSize = (v.outputBuffer.map String.length).sum) :
    listWF (setInst id v l) := by
  intro k inst hk
  by_cases hki : k = id
  · subst hki
    rw [lookupInst_setInst_self] at hk
    exact (Option.some.inj hk) ▸ hv
  · rw [lookupInst_setInst_ne id k v hki] at hk
    exact h k inst hk

theorem listWF_delInst (l : List (String × PtyInstance)) (id : String)
    (h : listWF l) : listWF (delInst id l) := by
  intro k inst hk
  by_cases hki : k = id
  · subst hki
    rw [lookupInst_delInst_self] at hk
    exact Option.noConfusion hk
  · rw [lookupInst_delInst_ne id k hki] at hk
    exact h k inst hk

theorem writeOp_st (st : ManagerState) (id data : String) :
    (writeOp st id data).st = st := by
  unfold writeOp
  split <;> rfl

theorem resizeOp_st (st : ManagerState) (id : String) (cols rows : Nat) :
    (resizeOp st id cols rows).st = st := by
  unfold resizeOp
  split
  · split <;> rfl
  · rfl

theorem stWF_killOp (st : ManagerState) (id : String) (h : stWF st) :
    stWF (killOp st id).st := by
  unfold killOp
  split
  · exact listWF_delInst _ _ h
  · exact h

theorem stWF_createOp (st : ManagerState) (id cwd : String) (t : SessionType)
    (n p : SpawnOutcome) (h : stWF st) : stWF (createOp st id cwd t n p).st := by
  unfold createOp pipedCreate
  by_cases hp : st.ptyAvailable <;> cases n <;> cases p <;>
    simp only [hp, Bool.false_eq_true, if_true, if_false] <;>
    first
      | exact h
      | exact listWF_setInst _ _ _ h rfl

theorem stWF_onDataOp (st : ManagerState) (id data : String) (h : stWF st) :
    stWF (onDataOp st id data).st := by
  unfold onDataOp
  cases hl : lookupInst id st.instances with
  | none => simp only [hl]; exact h
  | some inst =>
    simp only [hl]
    exact listWF_setInst _ _ _ h
      (appendChunk_wf ⟨inst.outputBuffer, inst.outputBufferSize⟩ data (h id inst hl))

theorem stWF_clearOp (st : ManagerState) (id : String) (h : stWF st) :
    stWF (clearOp st id).st := by
  unfold clearOp
  split
  · exact listWF_setInst _ _ _ h rfl
  · exact h

theorem stWF_restartOp (st : ManagerState) (id cwd : String)
    (n p : SpawnOutcome) (h : stWF st) : stWF (restartOp st id cwd n p).st := by
  unfold restartOp
  cases hl : lookupInst id st.instances with
  | none => simp only [hl]; exact h
  | some inst =>
    simp only [hl]
    have hc : stWF (createOp (killOp st id).st id cwd inst.type n p).st :=
      stWF_createOp _ _ _ _ _ _ (stWF_killOp st id h)
    split
    · split
      · exact listWF_setInst _ _ _ hc (h id inst hl)
      · exact hc
    · exact hc

theorem stWF_disposeOp (st : ManagerState) (h : stWF st) :
    stWF (disposeOp st).st := by
  intro k inst hk
  unfold disposeOp at hk
  exact h k inst (killAll_lookup (List.map Prod.fst st.instances)
    { st with disposed := true } k inst hk)

/-! ### Claim theorems: manager -/

/-! ### Claim theorems: manager -/

/-- C2: for a registered session id, if `restart` succeeds the new
instance carries exactly the pre-restart chunk sequence and tracked
size; if the re-create fails, `restart` returns false and the id is no
longer registered. -/
theorem claim_c2 (st : ManagerState) (id cwd : String)
    (natOut pipedOut : SpawnOutcome) (inst : PtyInstance)
    (h : lookupInst id st.instances = some inst) :
    ((restartOp st id cwd natOut pipedOut).ok = true →
      ∃ inst', lookupInst id (restartOp st id cwd natOut pipedOut).st.instances
          = some inst' ∧
        inst'.outputBuffer = inst.outputBuffer ∧
        inst'.outputBufferSize = inst.outputBufferSize) ∧
    ((restartOp st id cwd natOut pipedOut).ok = false →
      existsOp (restartOp st id cwd natOut pipedOut).st id = false) := by
  have hk : (killOp st id).st = { st with instances := delInst id st.instances } :=
    killOp_st_of_some st id inst h
  cases hok : (createOp (killOp st id).st id cwd inst.type natOut pipedOut).ok
  · have hfail := createOp_fail_instances (killOp st id).st id cwd inst.type
      natOut pipedOut hok
    constructor
    · intro habs
      simp only [restartOp, h, hok] at habs
      simp at habs
    · intro _
      simp only [restartOp, h, hok]
      simp only [Bool.false_eq_true, if_false]
      unfold existsOp
      rw [hfail, hk]
      simp [lookupInst_delInst_self]
  · obtain ⟨b, hb⟩ := createOp_ok_lookup (killOp st id).st id cwd inst.type
      natOut pipedOut hok
    constructor
    · intro _
      refine ⟨⟨inst.type, cwd, b, inst.outputBuffer, inst.outputBufferSize⟩, ?_, rfl, rfl⟩
      simp only [restartOp, h, hok, hb]
      simp [lookupInst_setInst_self]
    · intro habs
      simp only [restartOp, h, hok, hb] at habs
      simp at habs

/-- Witness for C2: restarting the session `s1` of the concrete state
`exSt` (native backend available and spawning fine) succeeds and keeps
its buffer `["hello"]` with tracked size 5. -/
theorem claim_c2_witness :
    lookupInst "s1" exSt.instances = some exInst ∧
    (restartOp exSt "s1" "/new" SpawnOutcome.ok SpawnOutcome.ok).ok = true ∧
    (∃ inst', lookupInst "s1"
        (restartOp exSt "s1" "/new" SpawnOutcome.ok SpawnOutcome.ok).st.instances
        = some inst' ∧
      inst'.outputBuffer = exInst.outputBuffer ∧
      inst'.outputBufferSize = exInst.outputBufferSize) :=
  ⟨by decide, by decide,
    (claim_c2 exSt "s1" "/new" SpawnOutcome.ok SpawnOutcome.ok exInst (by decide)).1
      (by decide)⟩

/-- C3: once a native spawn throws during `create`, the
native-available flag is false afterwards; a false flag stays false
under every subsequent operation; and with the flag false, `create`
never attempts a native spawn, uses the piped backend, still returns
true when the piped spawn does not throw, and (window alive, not
disposed) emits the synthetic degraded-mode notice as its first
output. -/
theorem claim_c3 (st : ManagerState) (id cwd : String) (t : SessionType)
    (natOut pipedOut : SpawnOutcome) (ops : List Op) :
    (createOp st id cwd t SpawnOutcome.throws pipedOut).st.ptyAvailable = false ∧
    (st.ptyAvailable = false → (run st ops).ptyAvailable = false) ∧
    (st.ptyAvailable = false →
      (createOp st id cwd t natOut SpawnOutcome.ok).attemptedNative = false ∧
      (createOp st id cwd t natOut SpawnOutcome.ok).ok = true ∧
      lookupInst id (createOp st id cwd t natOut SpawnOutcome.ok).st.instances
        = some ⟨t, cwd, false, [], 0⟩ ∧
      (st.disposed = false → st.windowDestroyed = false →
        (createOp st id cwd t natOut SpawnOutcome.ok).events.head?
          = some (Event.output id degradedNotice))) := by
  refine ⟨by rw [createOp_pty]; simp, fun h => run_pty_false st ops h, fun h => ?_⟩
  refine ⟨?_, ?_, ?_, fun hd hw => ?_⟩
  · simp [createOp, pipedCreate, h]
  · simp [createOp, pipedCreate, h]
  · simp [createOp, pipedCreate, h, lookupInst_setInst_self]
  · simp [createOp, pipedCreate, safeSend, h, hd, hw]

/-- Witness for C3 with the concrete no-native state. -/
theorem claim_c3_witness :
    (run exStNoNative [Op.create "s2" "/a" SessionType.terminal
        SpawnOutcome.ok SpawnOutcome.ok]).ptyAvailable = false ∧
    (createOp exStNoNative "s1" "/tmp" SessionType.terminal
        SpawnOutcome.ok SpawnOutcome.ok).attemptedNative = false ∧
    (createOp exStNoNative "s1" "/tmp" SessionType.terminal
        SpawnOutcome.ok SpawnOutcome.ok).ok = true ∧
    (createOp exStNoNative "s1" "/tmp" SessionType.terminal
        SpawnOutcome.ok SpawnOutcome.ok).events.head?
      = some (Event.output "s1" degradedNotice) :=
  ⟨(claim_c3 exStNoNative "s1" "/tmp" SessionType.terminal
      SpawnOutcome.ok SpawnOutcome.ok []).2.1 rfl,
    ((claim_c3 exStNoNative "s1" "/tmp" SessionType.terminal
      SpawnOutcome.ok SpawnOutcome.ok []).2.2 rfl).1,
    ((claim_c3 exStNoNative "s1" "/tmp" SessionType.terminal
      SpawnOutcome.ok SpawnOutcome.ok []).2.2 rfl).2.1,
    (((claim_c3 exStNoNative "s1" "/tmp" SessionType.terminal
      SpawnOutcome.ok SpawnOutcome.ok []).2.2 rfl).2.2.2 rfl rfl)⟩

/-- C5: for an id absent from the registry, `exists` is false,
`write`/`resize`/`clearOutputBuffer` leave the state unchanged and have
no effects, `kill` returns false and changes nothing, and
`getCwd`/`getOutputBuffer` return null. -/
theorem claim_c5 (st : ManagerState) (id data : String) (cols rows : Nat)
    (h : lookupInst id st.instances = none) :
    existsOp st id = false ∧
    writeOp st id data = ⟨st, [], [], true⟩ ∧
    resizeOp st id cols rows = ⟨st, [], [], true⟩ ∧
    killOp st id = ⟨st, [], [], false⟩ ∧
    clearOp st id = ⟨st, [], [], true⟩ ∧
    getCwdOp st id = none ∧
    getOutputBufferOp st id = none := by
  refine ⟨?_, ?_, ?_, ?_, ?_, ?_, ?_⟩ <;>
    simp [existsOp, writeOp, resizeOp, killOp, clearOp, getCwdOp,
      getOutputBufferOp, h]

/-- Witness for C5 at the empty manager state. -/
theorem claim_c5_witness :
    lookupInst "ghost" exStEmpty.instances = none ∧
    (existsOp exStEmpty "ghost" = false ∧
      writeOp exStEmpty "ghost" "x" = ⟨exStEmpty, [], [], true⟩ ∧
      resizeOp exStEmpty "ghost" 80 24 = ⟨exStEmpty, [], [], true⟩ ∧
      killOp exStEmpty "ghost" = ⟨exStEmpty, [], [], false⟩ ∧
      clearOp exStEmpty "ghost" = ⟨exStEmpty, [], [], true⟩ ∧
      getCwdOp exStEmpty "ghost" = none ∧
      getOutputBufferOp exStEmpty "ghost" = none) :=
  ⟨rfl, claim_c5 exStEmpty "ghost" "x" 80 24 rfl⟩

/-- C10: after a successful piped `create` (native unavailable or the
native spawn throwing), the session's stored buffer is empty —
`getOutputBuffer` returns the empty string, so the synthetic
degraded-mode notice was never appended to it — and a child-process
error event leaves the whole state (in particular the buffer)
unchanged, its synthetic text going only to the consumer sink. -/
theorem claim_c10 (st : ManagerState) (id cwd : String) (t : SessionType)
    (natOut : SpawnOutcome)
    (h : st.ptyAvailable = false ∨ natOut = SpawnOutcome.throws) :
    (createOp st id cwd t natOut SpawnOutcome.ok).ok = true ∧
    (∃ inst, lookupInst id
        (createOp st id cwd t natOut SpawnOutcome.ok).st.instances = some inst ∧
      inst.outputBuffer = []) ∧
    getOutputBufferOp (createOp st id cwd t natOut SpawnOutcome.ok).st id
      = some "" ∧
    (∀ msg,
      (onChildErrorOp (createOp st id cwd t natOut SpawnOutcome.ok).st id msg).st
        = (createOp st id cwd t natOut SpawnOutcome.ok).st) := by
  have hlk : lookupInst id
      (createOp st id cwd t natOut SpawnOutcome.ok).st.instances
      = some ⟨t, cwd, false, [], 0⟩ := by
    rcases h with h | h
    · unfold createOp pipedCreate
      rw [h]
      simp [lookupInst_setInst_self]
    · subst h
      unfold createOp pipedCreate
      by_cases hp : st.ptyAvailable <;> simp [hp, lookupInst_setInst_self]
  refine ⟨?_, ⟨⟨t, cwd, false, [], 0⟩, hlk, rfl⟩, ?_, fun msg => rfl⟩
  · rcases h with h | h
    · unfold createOp pipedCreate
      rw [h]
      simp
    · subst h
      unfold createOp pipedCreate
      by_cases hp : st.ptyAvailable <;> simp [hp]
  · unfold getOutputBufferOp
    rw [hlk]
    rfl

/-- Witness for C10 with the concrete no-native state. -/
theorem claim_c10_witness :
    (exStNoNative.ptyAvailable = false ∨ SpawnOutcome.ok = SpawnOutcome.throws) ∧
    ((createOp exStNoNative "s1" "/tmp" SessionType.terminal
        SpawnOutcome.ok SpawnOutcome.ok).ok = true ∧
      getOutputBufferOp (createOp exStNoNative "s1" "/tmp" SessionType.terminal
        SpawnOutcome.ok SpawnOutcome.ok).st "s1" = some "" ∧
      (onChildErrorOp (createOp exStNoNative "s1" "/tmp" SessionType.terminal
          SpawnOutcome.ok SpawnOutcome.ok).st "s1" "boom").st
        = (createOp exStNoNative "s1" "/tmp" SessionType.terminal
          SpawnOutcome.ok SpawnOutcome.ok).st) :=
  ⟨Or.inl rfl,
    (claim_c10 exStNoNative "s1" "/tmp" SessionType.terminal
      SpawnOutcome.ok (Or.inl rfl)).1,
    (claim_c10 exStNoNative "s1" "/tmp" SessionType.terminal
      SpawnOutcome.ok (Or.inl rfl)).2.2.1,
    (claim_c10 exStNoNative "s1" "/tmp" SessionType.terminal
      SpawnOutcome.ok (Or.inl rfl)).2.2.2 "boom"⟩

/-- Witness for C9 with a concrete small buffer and an oversized chunk. -/
theorem claim_c9_witness :
    (appendChunk ⟨["ab"], 2⟩ (repChar 'c' 200001)).chunks.getLast?
      = some (repChar 'c' 200001) ∧
    highWater < (appendChunk ⟨["ab"], 2⟩ (repChar 'c' 200001)).size :=
  ⟨(claim_c9 ⟨["ab"], 2⟩ (repChar 'c' 200001)).1,
    (claim_c9 ⟨["ab"], 2⟩ (repChar 'c' 200001)).2 (by simp [bufWF]; decide)
      (by norm_num [highWater])⟩

/-- C4 (as stated) is false: disposing a manager that holds one session
delivers a session-count notification (count 0) to the consumer —
`notifyTerminalCountChange` is not guarded by the disposed flag, unlike
`safeSend` — and a late exit event arriving after dispose delivers
another session-count notification. -/
theorem claim_c4_cex :
    (disposeOp exSt).events = [Event.countChange 0] ∧
    (onExitOp (disposeOp exSt).st "s1" 0).events = [Event.countChange 0] := by
  decide

/-- C4 (amended): after `dispose()` the manager is marked shut down,
every registered session is killed and the registry is left empty; no
further output or exit notifications are delivered (they go through
`safeSend`, which checks the disposed flag), but session-count
notifications are not suppressed: the kills performed by `dispose`
itself each deliver one, and a late exit event after dispose still
delivers one. -/
theorem claim_c4 (st : ManagerState) :
    (disposeOp st).st.instances = [] ∧
    (disposeOp st).st.disposed = true ∧
    (∀ e ∈ (disposeOp st).events, ∃ n, e = Event.countChange n) ∧
    (∀ id data, (onDataOp (disposeOp st).st id data).events = []) ∧
    (∀ id code, ∀ e ∈ (onExitOp (disposeOp st).st id code).events,
      ∃ n, e = Event.countChange n) := by
  have hemp : (disposeOp st).st.instances = [] := by
    unfold disposeOp
    apply killAll_empties
    intro p hp
    exact List.mem_map_of_mem Prod.fst hp
  have hdisp : (disposeOp st).st.disposed = true := by
    unfold disposeOp
    rw [killAll_disposed]
  refine ⟨hemp, hdisp, ?_, ?_, ?_⟩
  · intro e he
    unfold disposeOp at he
    exact killAll_events _ _ e he
  · intro id data
    simp only [onDataOp, hemp, lookupInst]
    exact safeSend_disposed _ _ hdisp
  · intro id code e he
    simp only [onExitOp, safeSend_disposed _ _ hdisp, List.nil_append,
      List.mem_singleton] at he
    exact ⟨_, he⟩

/-- Witness for C4 (amended) at the concrete one-session state. -/
theorem claim_c4_witness :
    (disposeOp exSt).st.instances = [] ∧
    (disposeOp exSt).st.disposed = true ∧
    (∃ n, Event.countChange 0 = Event.countChange n) ∧
    (onDataOp (disposeOp exSt).st "s1" "x").events = [] ∧
    (∃ n, Event.countChange 0 = Event.countChange n) :=
  ⟨(claim_c4 exSt).1, (claim_c4 exSt).2.1,
    (claim_c4 exSt).2.2.1 (Event.countChange 0) (by decide),
    (claim_c4 exSt).2.2.2.1 "s1" "x",
    (claim_c4 exSt).2.2.2.2 "s1" 0 (Event.countChange 0) (by decide)⟩

/-- C7: the tracked size field equals the sum of the lengths of the
chunks currently in the buffer, for every registered session, and this
invariant is preserved by every operation of the manager — data append
with trimming, `clearOutputBuffer`, `restart`'s save/restore, and all
the others. -/
theorem claim_c7 (st : ManagerState) (op : Op) (h : stWF st) :
    stWF (step st op) := by
  cases op with
  | create id cwd t n p => exact stWF_createOp st id cwd t n p h
  | write id data => rw [step, writeOp_st]; exact h
  | resize id cols rows => rw [step, resizeOp_st]; exact h
  | kill id => exact stWF_killOp st id h
  | restart id cwd n p => exact stWF_restartOp st id cwd n p h
  | onData id data => exact stWF_onDataOp st id data h
  | onExit id code => exact listWF_delInst _ _ h
  | onChildError id msg => exact h
  | clearBuffer id => exact stWF_clearOp st id h
  | dispose => exact stWF_disposeOp st h

/-- Witness for C7: the invariant holds for the concrete state `exSt`
and is preserved by a data append there. -/
theorem claim_c7_witness :
    stWF exSt ∧ stWF (step exSt (Op.onData "s1" "abc")) := by
  have hwf : stWF exSt := by
    intro k inst hk
    simp only [exSt, lookupInst] at hk
    by_cases hks : "s1" = k
    · rw [if_pos hks] at hk
      cases Option.some.inj hk
      decide
    · rw [if_neg hks] at hk
      exact Option.noConfusion hk
  exact ⟨hwf, claim_c7 exSt (Op.onData "s1" "abc") hwf⟩

end BAT
